import Mathlib

/-!
Shallow embedding of the Continuum client (src/client/src/App.jsx).

The component is a workflow state machine over a single `Session` record
(the React state hooks) together with a sequential enrichment pipeline.
Network calls are modelled as oracles packaged in a `Gateway` record: each
oracle returns `Except String r` where `Except.error msg` stands for a
thrown fault whose `e.message` is `msg`, and `Except.ok` carries the parsed
JSON response.  JS numbers are modelled as `Rat`.
-/

namespace Continuum

/-- The `step` state: 'auth' | 'source' | 'processing' | 'results'. -/
inductive Step where
  | auth | source | processing | results
deriving DecidableEq, Repr

/-- The `authMode` state: 'client' | 'user'. -/
inductive AuthMode where
  | client | user
deriving DecidableEq, Repr

/-- The `sourceMode` state: 'playlist' | 'recs'. -/
inductive SourceMode where
  | playlist | recs
deriving DecidableEq, Repr

/-- A track as returned by the source lookup (unenriched). -/
structure RawTrack where
  id : String
  name : String
  artist : String
  uri : String
deriving DecidableEq, Repr

/-- A track enriched with key / mode / BPM features. -/
structure EnrichedTrack where
  id : String
  name : String
  artist : String
  uri : String
  key : Nat
  mode : Nat
  BPM : Rat
deriving DecidableEq, Repr

instance : Inhabited EnrichedTrack := ⟨⟨"", "", "", "", 0, 0, 0⟩⟩

/-- The React state hooks of `App` gathered into one record. -/
structure Session where
  step : Step
  authMode : AuthMode
  sourceMode : SourceMode
  inputValue : String
  mixLength : Rat
  tracks : List EnrichedTrack
  progress : Rat
  status : String
  resultMix : List EnrichedTrack
  savedUrl : String
  error : String
deriving DecidableEq, Repr

/-- Response of `POST /api/auth/token`: `{success: bool, error?: string}`. -/
structure TokenResponse where
  success : Bool
  error : Option String
deriving DecidableEq, Repr

/-- Response of `POST /api/playlist` and `/api/recommendations`:
`{tracks: RawTrack[], error?: string}`. -/
structure SourceResponse where
  tracks : List RawTrack
  error : Option String
deriving DecidableEq, Repr

/-- Response of `POST /api/features`: `{found: bool, track?: EnrichedTrack}`.
When `found` is false the `track` field is never read by the client. -/
structure FeatResponse where
  found : Bool
  track : EnrichedTrack
deriving DecidableEq, Repr

/-- Response of `POST /api/solve`:
`{success: bool, mix?: EnrichedTrack[], message?: string}`. -/
structure SolveResponse where
  success : Bool
  mix : List EnrichedTrack
  message : Option String
deriving DecidableEq, Repr

/-- Response of `POST /api/save`: `{url?: string, error?: string}`. -/
structure SaveResponse where
  url : Option String
  error : Option String
deriving DecidableEq, Repr

/-- The network environment: one oracle per endpoint.  `Except.error m`
models a fault (rejected fetch / json failure) with message `m`. -/
structure Gateway where
  getAuthUrl : Except String String
  exchangeToken : String → Except String TokenResponse
  fetchSource : SourceMode → String → AuthMode → Except String SourceResponse
  features : RawTrack → Except String FeatResponse
  solve : List EnrichedTrack → Rat → Except String SolveResponse
  savePlaylist : List String → Except String SaveResponse

/-- JavaScript string truthiness (`undefined`/absent and `""` are falsy). -/
def truthy : Option String → Bool
  | none => false
  | some s => s ≠ ""

/-- `handleAuth`: in client mode go straight to 'source'; in user mode fetch
the auth URL, prompt for the redirected URL (`pasted`; `none` models a
dismissed prompt), exchange the token, and either advance or set the error.
Any thrown fault is caught and its message stored in `error`. -/
def handleAuth (env : Gateway) (pasted : Option String) (s : Session) : Session :=
  if s.authMode = AuthMode.client then
    { s with step := Step.source }
  else
    match env.getAuthUrl with
    | Except.error msg => { s with error := msg }
    | Except.ok _url =>
      match pasted with
      | none => s
      | some p =>
        if p = "" then s
        else
          match env.exchangeToken p with
          | Except.error msg => { s with error := msg }
          | Except.ok tok =>
            if tok.success then { s with step := Step.source }
            else
              { s with error := if truthy tok.error then tok.error.getD "" else "Auth Failed" }

/-- One `setProgress` + `setStatus` pair emitted at the top of the
enrichment loop body, before the per-track feature call. -/
structure ProgressEvent where
  progress : Rat
  label : String
deriving DecidableEq, Repr

/-- The status string `Processing [i+1/N]: name`. -/
def statusLabel (i N : Nat) (name : String) : String :=
  "Processing [" ++ toString (i + 1) ++ "/" ++ toString N ++ "]: " ++ name

/-- The enrichment loop of `handleFetch`: for the `i`-th of `N` tracks,
emit progress `i / N * 100` and the status label, then call the feature
oracle; a fault aborts the loop, a found track is appended, a not-found
track is skipped.  Returns the emitted events and the loop's outcome. -/
def enrichLoop (feat : RawTrack → Except String FeatResponse) (N : Nat) :
    Nat → List RawTrack → List ProgressEvent × Except String (List EnrichedTrack)
  | _, [] => ([], Except.ok [])
  | i, t :: ts =>
    let ev : ProgressEvent := ⟨(i : Rat) / (N : Rat) * 100, statusLabel i N t.name⟩
    match feat t with
    | Except.error msg => ([ev], Except.error msg)
    | Except.ok fr =>
      let r := enrichLoop feat N (i + 1) ts
      (ev :: r.1, if fr.found then r.2.map (fun l => fr.track :: l) else r.2)

/-- The tail of `handleFetch` after the loop: issue the solve call on the
processed list and dispatch on its outcome.  On failure the stored error is
`solveData.message || "Solver failed"`, falling back on an absent or empty
message (JS truthiness). -/
def solvePhase (r : Except String SolveResponse) (s : Session) : Session :=
  match r with
  | Except.error msg => { s with error := msg, step := Step.source }
  | Except.ok resp =>
    if resp.success then { s with resultMix := resp.mix, step := Step.results }
    else
      { s with
        error := if truthy resp.message then resp.message.getD "" else "Solver failed"
        step := Step.source }

/-- `handleFetch`: move to 'processing', clear the error, fetch the source
tracks, run the enrichment loop, then run the solver; any fault reverts to
'source' with the fault's message.  The second component is the ordered
list of all `setProgress` values emitted during the run. -/
def handleFetch (env : Gateway) (s : Session) : Session × List Rat :=
  let s1 := { s with step := Step.processing, error := "", status := "Fetching tracks..." }
  match env.fetchSource s.sourceMode s.inputValue s.authMode with
  | Except.error msg => ({ s1 with error := msg, step := Step.source }, [])
  | Except.ok data =>
    if truthy data.error then
      ({ s1 with error := data.error.getD "", step := Step.source }, [])
    else
      let rawTracks := data.tracks
      let r := enrichLoop env.features rawTracks.length 0 rawTracks
      match r.2 with
      | Except.error msg =>
        ({ s1 with progress := ((r.1.map ProgressEvent.progress).getLastD s1.progress),
                   status := ((r.1.map ProgressEvent.label).getLastD s1.status),
                   error := msg, step := Step.source }, r.1.map ProgressEvent.progress)
      | Except.ok processed =>
        let s2 := { s1 with tracks := processed, status := "Running Solver...", progress := 100 }
        (solvePhase (env.solve processed s.mixLength) s2,
         r.1.map ProgressEvent.progress ++ [100])

/-- `handleSave`: post the mix's URIs; on a truthy `url` store it, otherwise
alert the error; a thrown fault is alerted.  The second component is the
alert message, if any. -/
def handleSave (env : Gateway) (s : Session) : Session × Option String :=
  match env.savePlaylist (s.resultMix.map EnrichedTrack.uri) with
  | Except.error msg => (s, some msg)
  | Except.ok data =>
    if truthy data.url then ({ s with savedUrl := data.url.getD "" }, none)
    else (s, some ("Error: " ++ data.error.getD "undefined"))

/-- JavaScript `Array.prototype.join(sep)`. -/
def joinSep (sep : String) : List String → String
  | [] => ""
  | [x] => x
  | x :: y :: xs => x ++ sep ++ joinSep sep (y :: xs)

/-- `handleExport`: render the mix as `"<artist> - <name>"` lines joined by
newlines; no network call and no state update (the session is returned
unchanged). -/
def handleExport (s : Session) : String × Session :=
  (joinSep "\n" (s.resultMix.map (fun t => t.artist ++ " - " ++ t.name)), s)

/-- The Start Over button of the results card: `() => setStep('source')`. -/
def handleRestart (s : Session) : Session :=
  { s with step := Step.source }

/-- The outcome of the enrichment loop, index-free (the loop's `Except`
component does not depend on the progress counter). -/
def enrichRes (feat : RawTrack → Except String FeatResponse) :
    List RawTrack → Except String (List EnrichedTrack)
  | [] => Except.ok []
  | t :: ts =>
    match feat t with
    | Except.error msg => Except.error msg
    | Except.ok fr =>
      if fr.found then (enrichRes feat ts).map (fun l => fr.track :: l)
      else enrichRes feat ts

/-- The enriched list accumulated when no feature call faults. -/
def pureEnrich (feat : RawTrack → Except String FeatResponse) :
    List RawTrack → List EnrichedTrack
  | [] => []
  | t :: ts =>
    match feat t with
    | Except.error _ => pureEnrich feat ts
    | Except.ok fr =>
      if fr.found then fr.track :: pureEnrich feat ts else pureEnrich feat ts

/-! Concrete fixtures used to witness the theorems on sample runs. -/

/-- Sample raw track `{id1, X, A}`. -/
def rX : RawTrack := ⟨"id1", "X", "A", "uri1"⟩

/-- Sample raw track `{id2, Y, B}`. -/
def rY : RawTrack := ⟨"id2", "Y", "B", "uri2"⟩

/-- Sample enriched form of `rX`. -/
def eX : EnrichedTrack := ⟨"id1", "X", "A", "uri1", 5, 1, 120⟩

/-- Sample enriched form of `rY`. -/
def eY : EnrichedTrack := ⟨"id2", "Y", "B", "uri2", 7, 0, 125⟩

/-- The initial session (the `useState` initial values). -/
def baseSession : Session :=
  { step := Step.auth, authMode := AuthMode.client, sourceMode := SourceMode.playlist,
    inputValue := "", mixLength := 45, tracks := [], progress := 0, status := "",
    resultMix := [], savedUrl := "", error := "" }

/-- A session sitting at the source stage. -/
def sSource : Session := { baseSession with step := Step.source }

/-- A session at the results stage with a mix, a saved URL and a stale error. -/
def sResults : Session :=
  { baseSession with
    step := Step.results
    resultMix := [eX, eY]
    savedUrl := "https://playlist"
    error := "stale" }

/-- A session at the auth stage carrying a previous attempt's error. -/
def sStale : Session := { baseSession with error := "previous failure" }

/-- A session at the auth stage in user mode. -/
def sUser : Session := { baseSession with authMode := AuthMode.user }

/-- A well-behaved environment: two source tracks, both found, identity
solver, successful save. -/
def gw0 : Gateway :=
  { getAuthUrl := Except.ok "https://auth"
    exchangeToken := fun _ => Except.ok ⟨true, none⟩
    fetchSource := fun _ _ _ => Except.ok ⟨[rX, rY], none⟩
    features := fun t => Except.ok ⟨true, if t.id = "id1" then eX else eY⟩
    solve := fun songs _ => Except.ok ⟨true, songs, none⟩
    savePlaylist := fun _ => Except.ok ⟨some "https://playlist", none⟩ }

/-- An environment whose feature lookups all report not-found and whose
solver rejects with `no feasible mix`. -/
def gwNone : Gateway :=
  { gw0 with
    features := fun _ => Except.ok ⟨false, default⟩
    solve := fun _ _ => Except.ok ⟨false, [], some "no feasible mix"⟩ }

/-- A feature oracle that echoes each track back enriched (same identity
fields), always found. -/
def featEcho : RawTrack → Except String FeatResponse :=
  fun t => Except.ok ⟨true, ⟨t.id, t.name, t.artist, t.uri, 0, 0, 120⟩⟩

/-! Helper lemmas about the enrichment loop. -/

lemma enrichLoop_snd (feat : RawTrack → Except String FeatResponse) (N : Nat) :
    ∀ (l : List RawTrack) (i : Nat), (enrichLoop feat N i l).2 = enrichRes feat l := by
  intro l
  induction l with
  | nil => intro i; rfl
  | cons t ts ih =>
    intro i
    simp only [enrichLoop, enrichRes]
    cases feat t with
    | error msg => rfl
    | ok fr => simp [ih (i + 1)]

lemma enrichRes_ok (feat : RawTrack → Except String FeatResponse) (l : List RawTrack)
    (hok : ∀ t ∈ l, ∃ fr, feat t = Except.ok fr) :
    enrichRes feat l = Except.ok (pureEnrich feat l) := by
  induction l with
  | nil => rfl
  | cons t ts ih =>
    obtain ⟨fr, hfr⟩ := hok t (List.mem_cons_self t ts)
    have hts : ∀ u ∈ ts, ∃ fr, feat u = Except.ok fr :=
      fun u hu => hok u (List.mem_cons_of_mem _ hu)
    simp only [enrichRes, pureEnrich, hfr]
    by_cases h : fr.found <;> simp [h, ih hts, Except.map]

lemma enrichRes_fault (feat : RawTrack → Except String FeatResponse) (msg : String)
    (t : RawTrack) (post : List RawTrack) :
    ∀ pre : List RawTrack, (∀ u ∈ pre, ∃ fr, feat u = Except.ok fr) →
      feat t = Except.error msg →
      enrichRes feat (pre ++ t :: post) = Except.error msg := by
  intro pre
  induction pre with
  | nil => intro _ ht; simp [enrichRes, ht]
  | cons u us ih =>
    intro hok ht
    obtain ⟨fr, hfr⟩ := hok u (List.mem_cons_self u us)
    have hrec := ih (fun v hv => hok v (List.mem_cons_of_mem _ hv)) ht
    simp only [List.cons_append, enrichRes, hfr]
    by_cases h : fr.found <;> simp [h, hrec, Except.map]

lemma pureEnrich_length (feat : RawTrack → Except String FeatResponse) :
    ∀ l : List RawTrack, (pureEnrich feat l).length ≤ l.length := by
  intro l
  induction l with
  | nil => simp [pureEnrich]
  | cons t ts ih =>
    simp only [pureEnrich]
    cases feat t with
    | error msg => exact Nat.le_succ_of_le ih
    | ok fr =>
      by_cases h : fr.found
      · simpa [h] using Nat.succ_le_succ ih
      · simpa [h] using Nat.le_succ_of_le ih

lemma pureEnrich_ids_sublist (feat : RawTrack → Except String FeatResponse)
    (l : List RawTrack)
    (hid : ∀ t ∈ l, ∀ fr, feat t = Except.ok fr → fr.found = true → fr.track.id = t.id) :
    List.Sublist ((pureEnrich feat l).map EnrichedTrack.id) (l.map RawTrack.id) := by
  induction l with
  | nil => simp [pureEnrich]
  | cons t ts ih =>
    have hts : ∀ u ∈ ts, ∀ fr, feat u = Except.ok fr → fr.found = true → fr.track.id = u.id :=
      fun u hu => hid u (List.mem_cons_of_mem _ hu)
    simp only [pureEnrich, List.map_cons]
    cases hfr : feat t with
    | error msg => exact List.Sublist.cons _ (ih hts)
    | ok fr =>
      by_cases h : fr.found
      · simp only [h, if_true, List.map_cons, hid t (List.mem_cons_self t ts) fr hfr h]
        exact List.Sublist.cons₂ _ (ih hts)
      · simp only [h, if_false]
        exact List.Sublist.cons _ (ih hts)

lemma pureEnrich_nil_of_not_found (feat : RawTrack → Except String FeatResponse)
    (l : List RawTrack)
    (hnf : ∀ t ∈ l, ∃ fr, feat t = Except.ok fr ∧ fr.found = false) :
    pureEnrich feat l = [] := by
  induction l with
  | nil => rfl
  | cons t ts ih =>
    obtain ⟨fr, hfr, hfound⟩ := hnf t (List.mem_cons_self t ts)
    have hts : ∀ u ∈ ts, ∃ fr, feat u = Except.ok fr ∧ fr.found = false :=
      fun u hu => hnf u (List.mem_cons_of_mem _ hu)
    simp [pureEnrich, hfr, hfound, ih hts]

lemma enrichLoop_trace (feat : RawTrack → Except String FeatResponse) (N : Nat) :
    ∀ l : List RawTrack, (∀ t ∈ l, ∃ fr, feat t = Except.ok fr) →
      ∀ i : Nat, (enrichLoop feat N i l).1.map ProgressEvent.progress
        = (List.range l.length).map (fun k => ((i + k : Nat) : Rat) / (N : Rat) * 100) := by
  intro l
  induction l with
  | nil => intro _ i; simp [enrichLoop]
  | cons t ts ih =>
    intro hok i
    obtain ⟨fr, hfr⟩ := hok t (List.mem_cons_self t ts)
    have hts : ∀ u ∈ ts, ∃ fr, feat u = Except.ok fr :=
      fun u hu => hok u (List.mem_cons_of_mem _ hu)
    simp only [enrichLoop, hfr, List.length_cons, List.range_succ_eq_map, List.map_cons,
      List.map_map, List.cons.injEq]
    refine ⟨by norm_num, ?_⟩
    rw [ih hts (i + 1)]
    apply List.map_congr_left
    intro k _
    have hk : i + 1 + k = i + (k + 1) := by omega
    simp [Function.comp, hk]

lemma progress_le_100 (N k : Nat) (hk : k < N) :
    (k : Rat) / (N : Rat) * 100 ≤ 100 := by
  have hN : (0 : Rat) < (N : Rat) := by
    exact_mod_cast Nat.pos_of_ne_zero (by omega)
  have h1 : (k : Rat) / (N : Rat) ≤ 1 := by
    rw [div_le_one hN]
    exact_mod_cast Nat.le_of_lt hk
  nlinarith

lemma progress_chain (N : Nat) (hN : 0 < N) :
    List.Chain' (fun a b : Rat => a ≤ b)
      (((List.range N).map (fun k : Nat => (k : Rat) / (N : Rat) * 100)) ++ [100]) := by
  have hNR : ((N : Nat) : Rat) ≠ 0 := Nat.cast_ne_zero.mpr (by omega)
  have hNpos : (0 : Rat) < ((N : Nat) : Rat) := by
    exact_mod_cast hN
  have hlast : ((N : Nat) : Rat) / ((N : Nat) : Rat) * 100 = 100 := by
    rw [div_self hNR, one_mul]
  have hsplit :
      ((List.range N).map (fun k : Nat => (k : Rat) / (N : Rat) * 100)) ++ [(100 : Rat)]
        = (List.range (N + 1)).map (fun k : Nat => (k : Rat) / (N : Rat) * 100) := by
    rw [List.range_succ, List.map_append]
    simp [hlast]
  rw [hsplit]
  refine List.chain'_map_of_chain' _ (fun a b hab => ?_)
    ((List.chain'_range_succ (fun a b => a ≤ b) N).mpr (fun m _ => Nat.le_succ m))
  apply mul_le_mul_of_nonneg_right _ (by norm_num : (0 : Rat) ≤ 100)
  exact (div_le_div_iff_of_pos_right hNpos).mpr (by exact_mod_cast hab)

/-! Claim theorems. -/

/-- Claim C8: whenever the session's authMode is Client, submitting the Auth
stage transitions directly to Source, leaving every other field unchanged,
for every environment and prompt outcome (hence no Gateway call matters). -/
theorem c8_client_auth_direct (env : Gateway) (pasted : Option String) (s : Session)
    (h : s.authMode = AuthMode.client) :
    handleAuth env pasted s = { s with step := Step.source } := by
  simp [handleAuth, h]

/-- Witness for C8 on the initial session and the sample environment. -/
theorem c8_client_auth_direct_witness :
    handleAuth gw0 none baseSession = { baseSession with step := Step.source } :=
  c8_client_auth_direct gw0 none baseSession rfl

/-- Claim C10: in the User auth flow, when the auth-URL call succeeds but
the prompt is dismissed (absent or empty paste), the handler performs no
token exchange and leaves the session untouched, still at the Auth stage. -/
theorem c10_dismissed_prompt_no_change (env : Gateway) (pasted : Option String)
    (s : Session) (u : String)
    (hmode : s.authMode = AuthMode.user) (hstep : s.step = Step.auth)
    (hurl : env.getAuthUrl = Except.ok u)
    (hp : pasted = none ∨ pasted = some "") :
    handleAuth env pasted s = s ∧ (handleAuth env pasted s).step = Step.auth := by
  have heq : handleAuth env pasted s = s := by
    rcases hp with rfl | rfl <;> simp [handleAuth, hmode, hurl]
  exact ⟨heq, by rw [heq]; exact hstep⟩

/-- Witness for C10: the user-mode session with a dismissed prompt. -/
theorem c10_dismissed_prompt_no_change_witness :
    handleAuth gw0 none sUser = sUser ∧ (handleAuth gw0 none sUser).step = Step.auth :=
  c10_dismissed_prompt_no_change gw0 none sUser "https://auth" rfl rfl rfl (Or.inl rfl)

/-- Claim C7: export renders the mix as one `artist - name` line per entry
joined by newlines, returns the session unchanged (no stage or field
change, and no Gateway is consulted), and on the sample mix
`[{artist A, name X}, {artist B, name Y}]` yields exactly `A - X\nB - Y`. -/
theorem c7_export_text (s : Session) :
    (handleExport s).1 = joinSep "\n" (s.resultMix.map (fun t => t.artist ++ " - " ++ t.name)) ∧
    (handleExport s).2 = s ∧
    (handleExport sResults).1 = "A - X\nB - Y" := by
  refine ⟨rfl, rfl, ?_⟩
  rfl

/-- Claim C4 counterexample: Start Over from the sample results session
moves to Source but leaves the mix, the saved URL and the error message
exactly as they were (the claim asserts they are cleared). -/
theorem c4_restart_counterexample :
    (handleRestart sResults).step = Step.source ∧
    (handleRestart sResults).resultMix = [eX, eY] ∧
    (handleRestart sResults).resultMix ≠ [] ∧
    (handleRestart sResults).savedUrl = "https://playlist" ∧
    (handleRestart sResults).savedUrl ≠ "" ∧
    (handleRestart sResults).error = "stale" ∧
    (handleRestart sResults).error ≠ "" := by
  refine ⟨rfl, rfl, by decide, rfl, by decide, rfl, by decide⟩

/-- Claim C4 (amended): the restart intent from the Results stage
transitions the session to Source and changes nothing else — the Mix, the
SavedPlaylistRef and the errorMessage are all left unchanged. -/
theorem c4_restart_only_step (s : Session) :
    handleRestart s = { s with step := Step.source } := rfl

/-- Claim C5 counterexample: a Client-mode Auth submission on a session
carrying a previous error succeeds (moves to Source) yet leaves the old
errorMessage in place, so not every new attempt clears the error. -/
theorem c5_auth_keeps_error_counterexample :
    (handleAuth gw0 none sStale).step = Step.source ∧
    (handleAuth gw0 none sStale).error = "previous failure" := ⟨rfl, rfl⟩

/-- Claim C5 (amended): every Source submission clears errorMessage at its
start — the entire outcome of the run is independent of any previously
stored error, so each new Source attempt replaces rather than accumulates
the previous error — but Auth submissions do not clear errorMessage. -/
theorem c5_source_submission_replaces_error (env : Gateway) (s : Session) (e₁ e₂ : String) :
    handleFetch env { s with error := e₁ } = handleFetch env { s with error := e₂ } := rfl

/-- Claim C6: a save attempt never changes the stage or the mix; on a fault
or a missing URL the error is surfaced as an alert with the session
untouched, and the saved URL is stored exactly when the call returns a
(truthy) URL. -/
theorem c6_save_nonfatal (env : Gateway) (s : Session) :
    (handleSave env s).1.step = s.step ∧
    (handleSave env s).1.resultMix = s.resultMix ∧
    (∀ msg, env.savePlaylist (s.resultMix.map EnrichedTrack.uri) = Except.error msg →
      handleSave env s = (s, some msg)) ∧
    (∀ data, env.savePlaylist (s.resultMix.map EnrichedTrack.uri) = Except.ok data →
      truthy data.url = false →
      (handleSave env s).1 = s ∧
      (handleSave env s).2 = some ("Error: " ++ data.error.getD "undefined")) ∧
    (∀ data u, env.savePlaylist (s.resultMix.map EnrichedTrack.uri) = Except.ok data →
      data.url = some u → u ≠ "" →
      handleSave env s = ({ s with savedUrl := u }, none)) := by
  refine ⟨?_, ?_, ?_, ?_, ?_⟩
  · simp only [handleSave]
    cases h : env.savePlaylist (s.resultMix.map EnrichedTrack.uri) with
    | error msg => rfl
    | ok data => by_cases hu : truthy data.url <;> simp [hu]
  · simp only [handleSave]
    cases h : env.savePlaylist (s.resultMix.map EnrichedTrack.uri) with
    | error msg => rfl
    | ok data => by_cases hu : truthy data.url <;> simp [hu]
  · intro msg hmsg
    simp [handleSave, hmsg]
  · intro data hdata hu
    simp [handleSave, hdata, hu]
  · intro data u hdata hu hne
    simp [handleSave, hdata, hu, truthy, hne]

/-- Witness for C6: a successful save on the sample results session stores
the returned playlist URL and raises no alert. -/
theorem c6_save_nonfatal_witness :
    handleSave gw0 sResults = ({ sResults with savedUrl := "https://playlist" }, none) := by
  have h := c6_save_nonfatal gw0 sResults
  exact h.2.2.2.2 ⟨some "https://playlist", none⟩ "https://playlist" rfl rfl (by decide)

/-- Claim C1: on a non-empty input whose feature lookups all respond
(found or not), the pipeline succeeds, its output is at most as long as
the input, the output identifiers form a sublist of the input identifiers
(order-preserving, no fabrication, given that found responses carry the
queried track's identifier), and every output identifier matches some
input identifier; not-found tracks are dropped without any error. -/
theorem c1_pipeline_order_preserving (feat : RawTrack → Except String FeatResponse)
    (l : List RawTrack) (hne : l ≠ [])
    (hok : ∀ t ∈ l, ∃ fr, feat t = Except.ok fr)
    (hid : ∀ t ∈ l, ∀ fr, feat t = Except.ok fr → fr.found = true → fr.track.id = t.id) :
    (enrichLoop feat l.length 0 l).2 = Except.ok (pureEnrich feat l) ∧
    (pureEnrich feat l).length ≤ l.length ∧
    List.Sublist ((pureEnrich feat l).map EnrichedTrack.id) (l.map RawTrack.id) ∧
    ∀ e ∈ pureEnrich feat l, ∃ t ∈ l, e.id = t.id := by
  refine ⟨?_, pureEnrich_length feat l, pureEnrich_ids_sublist feat l hid, ?_⟩
  · rw [enrichLoop_snd]
    exact enrichRes_ok feat l hok
  · intro e he
    have hmem : e.id ∈ l.map RawTrack.id :=
      (pureEnrich_ids_sublist feat l hid).subset (List.mem_map_of_mem _ he)
    obtain ⟨t, ht, hteq⟩ := List.mem_map.mp hmem
    exact ⟨t, ht, hteq.symm⟩

/-- Witness for C1 on the two sample tracks and the echoing oracle. -/
theorem c1_pipeline_order_preserving_witness :
    (enrichLoop featEcho ([rX, rY] : List RawTrack).length 0 [rX, rY]).2
        = Except.ok (pureEnrich featEcho [rX, rY]) ∧
    (pureEnrich featEcho [rX, rY]).length ≤ ([rX, rY] : List RawTrack).length ∧
    List.Sublist ((pureEnrich featEcho [rX, rY]).map EnrichedTrack.id)
      (([rX, rY] : List RawTrack).map RawTrack.id) ∧
    ∀ e ∈ pureEnrich featEcho [rX, rY], ∃ t ∈ [rX, rY], e.id = t.id := by
  apply c1_pipeline_order_preserving featEcho [rX, rY] (by decide)
      (fun t _ => ⟨_, rfl⟩)
  intro t _ fr hfr _
  injection hfr with h
  rw [← h]

/-- Claim C2: on a run whose source fetch succeeds and whose feature calls
all respond, the emitted progress values are exactly `i / N * 100` for
`i = 0 .. N-1` followed by a single final `100` (the final track's
completion is not separately emitted), the sequence is monotonically
non-decreasing, and the progress field is exactly 100 once the loop ends. -/
theorem c2_progress_values (env : Gateway) (s : Session) (data : SourceResponse)
    (hne : data.tracks ≠ [])
    (hf : env.fetchSource s.sourceMode s.inputValue s.authMode = Except.ok data)
    (he : truthy data.error = false)
    (hok : ∀ t ∈ data.tracks, ∃ fr, env.features t = Except.ok fr) :
    (handleFetch env s).2 =
      (List.range data.tracks.length).map
        (fun i : Nat => (i : Rat) / (data.tracks.length : Rat) * 100) ++ [100] ∧
    List.Chain' (fun a b : Rat => a ≤ b) (handleFetch env s).2 ∧
    (handleFetch env s).1.progress = 100 := by
  have hres : (enrichLoop env.features data.tracks.length 0 data.tracks).2
      = Except.ok (pureEnrich env.features data.tracks) := by
    rw [enrichLoop_snd]
    exact enrichRes_ok _ _ hok
  have htr : (enrichLoop env.features data.tracks.length 0 data.tracks).1.map
        ProgressEvent.progress
      = (List.range data.tracks.length).map
        (fun i : Nat => (i : Rat) / (data.tracks.length : Rat) * 100) := by
    rw [enrichLoop_trace _ _ _ hok 0]
    apply List.map_congr_left
    intro k _
    norm_num
  have hN : 0 < data.tracks.length := List.length_pos.mpr hne
  have hmain : (handleFetch env s).2 =
      (List.range data.tracks.length).map
        (fun i : Nat => (i : Rat) / (data.tracks.length : Rat) * 100) ++ [100] := by
    simp only [handleFetch, hf, he, Bool.false_eq_true, if_false, hres, htr]
  refine ⟨hmain, ?_, ?_⟩
  · rw [hmain]
    exact progress_chain _ hN
  · simp only [handleFetch, hf, he, Bool.false_eq_true, if_false, hres]
    cases hs : env.solve (pureEnrich env.features data.tracks) s.mixLength with
    | error msg => rfl
    | ok resp => by_cases hsucc : resp.success <;> simp [solvePhase, hsucc]

/-- Witness for C2: the sample two-track run emits exactly 0, 50, 100. -/
theorem c2_progress_values_witness :
    (handleFetch gw0 sSource).2 = [(0 : Rat), 50, 100] ∧
    List.Chain' (fun a b : Rat => a ≤ b) (handleFetch gw0 sSource).2 ∧
    (handleFetch gw0 sSource).1.progress = 100 := by
  have h := c2_progress_values gw0 sSource ⟨[rX, rY], none⟩ (by decide) rfl rfl
      (fun t _ => ⟨⟨true, if t.id = "id1" then eX else eY⟩, rfl⟩)
  refine ⟨?_, h.2.1, h.2.2⟩
  rw [h.1]
  norm_num [List.range_succ]

/-- Claim C3: a fault in the source fetch, a fault on any single per-track
feature call (aborting with no partial results kept), a fault in the solve
call, or a solve response reporting failure each leave the stage at Source
with the errorMessage equal to the failure's message (or the generic
`Solver failed` fallback when the solve response carries no message). -/
theorem c3_error_recovery (env : Gateway) (s : Session) :
    (∀ msg, env.fetchSource s.sourceMode s.inputValue s.authMode = Except.error msg →
      (handleFetch env s).1.step = Step.source ∧ (handleFetch env s).1.error = msg) ∧
    (∀ data pre t post msg,
      env.fetchSource s.sourceMode s.inputValue s.authMode = Except.ok data →
      truthy data.error = false →
      data.tracks = pre ++ t :: post →
      (∀ u ∈ pre, ∃ fr, env.features u = Except.ok fr) →
      env.features t = Except.error msg →
      (handleFetch env s).1.step = Step.source ∧ (handleFetch env s).1.error = msg ∧
      (handleFetch env s).1.tracks = s.tracks ∧
      (handleFetch env s).1.resultMix = s.resultMix) ∧
    (∀ data msg,
      env.fetchSource s.sourceMode s.inputValue s.authMode = Except.ok data →
      truthy data.error = false →
      (∀ u ∈ data.tracks, ∃ fr, env.features u = Except.ok fr) →
      env.solve (pureEnrich env.features data.tracks) s.mixLength = Except.error msg →
      (handleFetch env s).1.step = Step.source ∧ (handleFetch env s).1.error = msg) ∧
    (∀ data resp m,
      env.fetchSource s.sourceMode s.inputValue s.authMode = Except.ok data →
      truthy data.error = false →
      (∀ u ∈ data.tracks, ∃ fr, env.features u = Except.ok fr) →
      env.solve (pureEnrich env.features data.tracks) s.mixLength = Except.ok resp →
      resp.success = false →
      resp.message = some m → m ≠ "" →
      (handleFetch env s).1.step = Step.source ∧ (handleFetch env s).1.error = m) ∧
    (∀ data resp,
      env.fetchSource s.sourceMode s.inputValue s.authMode = Except.ok data →
      truthy data.error = false →
      (∀ u ∈ data.tracks, ∃ fr, env.features u = Except.ok fr) →
      env.solve (pureEnrich env.features data.tracks) s.mixLength = Except.ok resp →
      resp.success = false →
      (resp.message = none ∨ resp.message = some "") →
      (handleFetch env s).1.step = Step.source ∧
      (handleFetch env s).1.error = "Solver failed") ∧
    (∀ data m,
      env.fetchSource s.sourceMode s.inputValue s.authMode = Except.ok data →
      data.error = some m → m ≠ "" →
      (handleFetch env s).1.step = Step.source ∧ (handleFetch env s).1.error = m) := by
  refine ⟨?_, ?_, ?_, ?_, ?_, ?_⟩
  · intro msg hmsg
    simp [handleFetch, hmsg]
  · intro data pre t post msg hf he hsplit hpre ht
    have hres : (enrichLoop env.features data.tracks.length 0 data.tracks).2
        = Except.error msg := by
      rw [enrichLoop_snd, hsplit]
      exact enrichRes_fault env.features msg t post pre hpre ht
    simp [handleFetch, hf, he, hres]
  · intro data msg hf he hok hsolve
    have hres : (enrichLoop env.features data.tracks.length 0 data.tracks).2
        = Except.ok (pureEnrich env.features data.tracks) := by
      rw [enrichLoop_snd]
      exact enrichRes_ok _ _ hok
    simp [handleFetch, hf, he, hres, hsolve, solvePhase]
  · intro data resp m hf he hok hsolve hfail hm hmne
    have hres : (enrichLoop env.features data.tracks.length 0 data.tracks).2
        = Except.ok (pureEnrich env.features data.tracks) := by
      rw [enrichLoop_snd]
      exact enrichRes_ok _ _ hok
    have hmt : truthy (some m) = true := by simp [truthy, hmne]
    simp [handleFetch, hf, he, hres, hsolve, solvePhase, hfail, hm, hmt]
  · intro data resp hf he hok hsolve hfail hm
    have hres : (enrichLoop env.features data.tracks.length 0 data.tracks).2
        = Except.ok (pureEnrich env.features data.tracks) := by
      rw [enrichLoop_snd]
      exact enrichRes_ok _ _ hok
    have hmt : truthy resp.message = false := by
      rcases hm with hm | hm <;> simp [hm, truthy]
    simp [handleFetch, hf, he, hres, hsolve, solvePhase, hfail, hmt]
  · intro data m hf hm hmne
    simp [handleFetch, hf, hm, truthy, hmne]

/-- Witness for C3: on the not-found environment the solver rejects with
`no feasible mix` and the run ends at Source carrying exactly that error. -/
theorem c3_error_recovery_witness :
    (handleFetch gwNone sSource).1.step = Step.source ∧
    (handleFetch gwNone sSource).1.error = "no feasible mix" := by
  have h := c3_error_recovery gwNone sSource
  exact h.2.2.2.1 ⟨[rX, rY], none⟩ ⟨false, [], some "no feasible mix"⟩ "no feasible mix"
    rfl rfl (fun t _ => ⟨⟨false, default⟩, rfl⟩) rfl rfl rfl (by decide)

/-- Claim C9: when every feature lookup reports not-found, the enriched
sequence is empty and the run still hands that empty sequence to the solve
call — the final session is exactly the solve dispatch on the empty list,
with no local short-circuit. -/
theorem c9_empty_enrichment_still_solves (env : Gateway) (s : Session)
    (data : SourceResponse)
    (hf : env.fetchSource s.sourceMode s.inputValue s.authMode = Except.ok data)
    (he : truthy data.error = false)
    (hnf : ∀ t ∈ data.tracks, ∃ fr, env.features t = Except.ok fr ∧ fr.found = false) :
    pureEnrich env.features data.tracks = [] ∧
    (handleFetch env s).1 =
      solvePhase (env.solve [] s.mixLength)
        { s with step := Step.processing, error := "", status := "Running Solver...",
                 tracks := [], progress := 100 } := by
  have hok : ∀ t ∈ data.tracks, ∃ fr, env.features t = Except.ok fr :=
    fun t ht => ⟨(hnf t ht).choose, (hnf t ht).choose_spec.1⟩
  have hnil : pureEnrich env.features data.tracks = [] :=
    pureEnrich_nil_of_not_found _ _ hnf
  have hres : (enrichLoop env.features data.tracks.length 0 data.tracks).2
      = Except.ok ([] : List EnrichedTrack) := by
    rw [enrichLoop_snd, enrichRes_ok _ _ hok, hnil]
  refine ⟨hnil, ?_⟩
  simp [handleFetch, hf, he, hres]

/-- Witness for C9: the not-found environment still consults its solver on
the empty list. -/
theorem c9_empty_enrichment_still_solves_witness :
    pureEnrich gwNone.features ([rX, rY] : List RawTrack) = [] ∧
    (handleFetch gwNone sSource).1 =
      solvePhase (gwNone.solve [] sSource.mixLength)
        { sSource with step := Step.processing, error := "", status := "Running Solver...",
                       tracks := [], progress := 100 } :=
  c9_empty_enrichment_still_solves gwNone sSource ⟨[rX, rY], none⟩ rfl rfl
    (fun t _ => ⟨⟨false, default⟩, rfl, rfl⟩)

end Continuum
